import Mathlib

/-!
Verification development for the WO-App-Exercises repository.

The repository has two cores:
* a read API (Express server, `api/server.js`): filtered, paginated listing,
  get-by-id, batch lookup, search, and facet endpoints over a persisted
  JSON snapshot;
* a content pipeline (`scripts/md-to-json.js`): parse markdown sources,
  enrich, validate, detect change via a hash ledger, bump a semantic
  version, and persist artifacts.

Strings are embedded as lists of characters (`Str`), so that the
character-level operations of the source (`toLowerCase`, `includes`,
`split`, `join`) are ordinary structural recursions.  The pipeline's
file-level bookkeeping uses plain `String` for paths and contents, with
the MD5 digest abstracted as a function parameter (change detection only
compares digests for equality, so nothing depends on the digest's
internals).
-/

/-- Strings at the character level: a JS string as its list of UTF-16-ish
code points. -/
abbrev Str := List Char

namespace WO

/-- JS `String.prototype.toLowerCase`, applied per character. -/
def lowerStr (s : Str) : Str := s.map Char.toLower

/-- JS `String.prototype.includes`: `containsSub h n = true` iff `n` occurs
as a contiguous substring of `h` (the empty needle always matches). -/
def containsSub : Str → Str → Bool
  | [], n => n.isEmpty
  | c :: t, n => n.isPrefixOf (c :: t) || containsSub t n

/-- JS `String.prototype.split(sep)` for a single-character separator:
`"a.b".split "." = ["a", "b"]`, `"".split "." = [""]`. -/
def splitOnChar (sep : Char) : Str → List Str
  | [] => [[]]
  | c :: rest =>
    if c = sep then [] :: splitOnChar sep rest
    else
      match splitOnChar sep rest with
      | [] => [[c]]
      | s :: ss => (c :: s) :: ss

/-- JS `Array.prototype.join(sep)` for a single-character separator. -/
def joinChar (c : Char) : List Str → Str
  | [] => []
  | [s] => s
  | s :: t :: rest => s ++ c :: joinChar c (t :: rest)

/-- `scripts/md-to-json.js`, `parseMarkdownFile`: thumbnail name for one
image path — `split('.')`, pop the extension, re-join, and insert the
`-thumb` suffix before the extension. -/
def thumbName (p : Str) : Str :=
  let pathParts := splitOnChar '.' p
  let ext := pathParts.getLastD []
  joinChar '.' pathParts.dropLast ++ "-thumb".data ++ '.' :: ext

/-- `scripts/md-to-json.js`, `parseMarkdownFile`: the derived
`mobile.thumbnails` list, one thumbnail per image, by index. -/
def thumbnailsOf (images : List Str) : List Str := images.map thumbName

/-- One step of JS `Set` insertion (JS sets preserve insertion order and
drop duplicates). -/
def addDistinct (acc : List Str) (m : Str) : List Str :=
  if m ∈ acc then acc else acc ++ [m]

/-- Collect the distinct elements of a list in first-occurrence order, as
iterating a JS `Set` does. -/
def dedupKeepFirst (l : List Str) : List Str := l.foldl addDistinct []

/-- Default JS `Array.prototype.sort()` comparison: lexicographic on code
units. -/
def strLe : Str → Str → Bool
  | [], _ => true
  | _ :: _, [] => false
  | a :: as, b :: bs =>
    if a.val < b.val then true
    else if b.val < a.val then false
    else strLe as bs

/-! ## The query engine (`api/server.js`)

An exercise record as the query engine consumes it.  Fields the read
endpoints never inspect (instructions, images, videos, the mobile block,
timestamps) are omitted; record fields that may be absent in JSON
(`equipment`, `secondaryMuscles`, `tags`) are modelled as lists, a missing
field being the empty list — every guarded JS access
(`ex.equipment && ex.equipment.includes(...)`) evaluates identically. -/

structure Exercise where
  id : Str
  name : Str
  category : Str
  difficulty : Str
  equipment : List Str
  primaryMuscles : List Str
  secondaryMuscles : List Str
  tags : List Str
  description : Str
deriving DecidableEq

/-- The query-string parameters the GET handlers read.  `page` and `limit`
are modelled post-`parseInt`: `none` covers an absent or non-numeric
parameter (`parseInt` gives `NaN`, which is falsy).  Field projection
(`fields`) is not modelled; every claim under study is about
projection-free requests. -/
structure Query where
  category : Option Str := none
  difficulty : Option Str := none
  equipment : Option Str := none
  muscle : Option Str := none
  tags : Option Str := none
  query : Option Str := none
  page : Option Nat := none
  limit : Option Nat := none
  ids : Option Str := none
deriving DecidableEq

/-- JS truthiness test on an optional string parameter: absent and empty
both count as not supplied (`if (req.query.x)`). -/
def truthy : Option Str → Option Str
  | some s => if s.isEmpty then none else some s
  | none => none

/-- `exercises.filter(ex => ex.category === c)`. -/
def categoryPred (c : Str) (ex : Exercise) : Bool := ex.category == c

/-- `exercises.filter(ex => ex.difficulty === d)`. -/
def difficultyPred (d : Str) (ex : Exercise) : Bool := ex.difficulty == d

/-- `ex.equipment && ex.equipment.includes(e)`. -/
def equipmentPred (e : Str) (ex : Exercise) : Bool := ex.equipment.contains e

/-- `ex.primaryMuscles.includes(m) || ex.secondaryMuscles.includes(m)`. -/
def musclePred (m : Str) (ex : Exercise) : Bool :=
  ex.primaryMuscles.contains m || ex.secondaryMuscles.contains m

/-- `req.query.tags.split(',')`, then
`tags.some(tag => ex.tags.includes(tag))`. -/
def tagsPred (t : Str) (ex : Exercise) : Bool :=
  (splitOnChar ',' t).any (fun tag => ex.tags.contains tag)

/-- The `/search` text test: query lower-cased once, then matched as a
substring of the lower-cased name, description, or some tag. -/
def matchesText (qs : Str) (ex : Exercise) : Bool :=
  let sq := lowerStr qs
  containsSub (lowerStr ex.name) sq ||
    containsSub (lowerStr ex.description) sq ||
    ex.tags.any (fun tag => containsSub (lowerStr tag) sq)

/-- `if (param) { list = list.filter(pred param) }`. -/
def optFilter (o : Option Str) (p : Str → Exercise → Bool)
    (l : List Exercise) : List Exercise :=
  match o with
  | none => l
  | some v => l.filter (p v)

/-- Whether an optional filter parameter accepts a record. -/
def optSat (o : Option Str) (p : Str → Exercise → Bool) (ex : Exercise) : Bool :=
  match o with
  | none => true
  | some v => p v ex

/-- `GET /api/v1/exercises` filter chain (category, difficulty, equipment,
muscle, tags — in source order). -/
def applyFilters (q : Query) (exercises : List Exercise) : List Exercise :=
  optFilter (truthy q.tags) tagsPred
    (optFilter (truthy q.muscle) musclePred
      (optFilter (truthy q.equipment) equipmentPred
        (optFilter (truthy q.difficulty) difficultyPred
          (optFilter (truthy q.category) categoryPred exercises))))

/-- `GET /api/v1/search` filter chain: text search, then category,
difficulty, equipment, muscle — the search handler has no tags filter. -/
def searchFilter (q : Query) (exercises : List Exercise) : List Exercise :=
  optFilter (truthy q.muscle) musclePred
    (optFilter (truthy q.equipment) equipmentPred
      (optFilter (truthy q.difficulty) difficultyPred
        (optFilter (truthy q.category) categoryPred
          (optFilter (truthy q.query) matchesText exercises))))

/-- `parseInt(req.query.page) || 1` on the modelled domain (`0` is falsy). -/
def effPage (q : Query) : Nat :=
  match q.page with
  | none => 1
  | some 0 => 1
  | some (n + 1) => n + 1

/-- `parseInt(req.query.limit) || 20` on the modelled domain. -/
def effLimit (q : Query) : Nat :=
  match q.limit with
  | none => 20
  | some 0 => 20
  | some (n + 1) => n + 1

/-- The `metadata` + `exercises` body of a List/Search response. -/
structure ListResponse where
  total : Nat
  page : Nat
  limit : Nat
  pages : Nat
  exercises : List Exercise
deriving DecidableEq

/-- Pagination as both handlers perform it: `startIndex = (page-1)*limit`,
`slice(startIndex, page*limit)`, `pages = Math.ceil(total/limit)` (for a
positive limit, `Math.ceil(t/l)` is `(t + l - 1) / l` in natural
division). -/
def paginate (q : Query) (filtered : List Exercise) : ListResponse :=
  let page := effPage q
  let limit := effLimit q
  let startIndex := (page - 1) * limit
  { total := filtered.length
    page := page
    limit := limit
    pages := (filtered.length + limit - 1) / limit
    exercises := (filtered.drop startIndex).take limit }

/-- The persisted snapshot the server reads: the per-record files
`DATA_DIR/<id>.json` keyed by id, and the aggregate `exercises.json`
(`none` when the file does not exist). -/
structure Store where
  records : List (Str × Exercise)
  exercisesJson : Option (List Exercise)

/-- A category facet entry (`{ id, name }`). -/
structure Category where
  id : Str
  name : Str
deriving DecidableEq

/-- What a GET endpoint answers with; `errResp` carries the HTTP status
and the `{error: message}` body, success bodies are carried per shape. -/
inductive ApiResponse where
  | listResp (r : ListResponse)
  | recordResp (e : Exercise)
  | batchResp (es : List Exercise)
  | categoriesResp (cs : List Category)
  | musclesResp (ms : List Str)
  | versionResp
  | rootResp
  | errResp (status : Nat) (msg : Str)
deriving DecidableEq

/-- `GET /api/v1/exercises`. -/
def getExercisesHandler (store : Store) (q : Query) : ApiResponse :=
  match store.exercisesJson with
  | none => .errResp 404 "No exercise data found. Run the conversion script first.".data
  | some data => .listResp (paginate q (applyFilters q data))

/-- `GET /api/v1/exercises/:id` (without field projection). -/
def getByIdHandler (store : Store) (id : Str) : ApiResponse :=
  match store.records.lookup id with
  | none => .errResp 404 "Exercise not found".data
  | some ex => .recordResp ex

/-- `GET /api/v1/exercises/batch`: split the `ids` parameter on commas and
collect, in input order, the records whose file exists. -/
def batchHandler (store : Store) (q : Query) : ApiResponse :=
  match truthy q.ids with
  | none => .errResp 400 "IDs parameter is required".data
  | some s =>
    .batchResp ((splitOnChar ',' s).filterMap (fun id => store.records.lookup id))

/-- `GET /api/v1/search`. -/
def searchHandler (store : Store) (q : Query) : ApiResponse :=
  if (truthy q.query).isNone && (truthy q.category).isNone &&
      (truthy q.difficulty).isNone && (truthy q.equipment).isNone &&
      (truthy q.muscle).isNone then
    .errResp 400 "At least one search parameter is required".data
  else
    match store.exercisesJson with
    | none => .errResp 404 "No exercise data found".data
    | some data => .listResp (paginate q (searchFilter q data))

/-- The hardcoded category list of `GET /api/v1/categories`. -/
def fixedCategories : List Category :=
  [⟨"upper-body".data, "Upper Body".data⟩,
   ⟨"lower-body".data, "Lower Body".data⟩,
   ⟨"core".data, "Core".data⟩,
   ⟨"cardio".data, "Cardio".data⟩,
   ⟨"flexibility".data, "Flexibility".data⟩]

/-- `GET /api/v1/categories`: answers the fixed list, never reading the
dataset. -/
def categoriesHandler : ApiResponse := .categoriesResp fixedCategories

/-- The muscle list of `GET /api/v1/muscles`: every primary then secondary
muscle of every exercise into a `Set`, then default-sorted. -/
def musclesList (data : List Exercise) : List Str :=
  (dedupKeepFirst
    (data.flatMap (fun ex => ex.primaryMuscles ++ ex.secondaryMuscles))).mergeSort strLe

/-- `GET /api/v1/muscles`. -/
def musclesHandler (store : Store) : ApiResponse :=
  match store.exercisesJson with
  | none => .errResp 404 "No exercise data found".data
  | some data => .musclesResp (musclesList data)

/-! ### Routing

Express tries the registered GET routes in registration order and runs the
first whose pattern matches the request path; `:id` matches any single
path segment. -/

/-- A pattern segment: a literal, or a `:param` capture. -/
inductive Seg where
  | lit (s : Str)
  | param
deriving DecidableEq

/-- Which handler a route is registered with. -/
inductive HTag where
  | versionT
  | listT
  | getByIdT
  | batchT
  | searchT
  | categoriesT
  | musclesT
  | rootT
deriving DecidableEq

/-- The GET routes of `api/server.js`, in registration order.  Note that
`/api/v1/exercises/:id` is registered before `/api/v1/exercises/batch`. -/
def apiRoutes : List (List Seg × HTag) :=
  [([.lit "api".data, .lit "v1".data, .lit "version".data], .versionT),
   ([.lit "api".data, .lit "v1".data, .lit "exercises".data], .listT),
   ([.lit "api".data, .lit "v1".data, .lit "exercises".data, .param], .getByIdT),
   ([.lit "api".data, .lit "v1".data, .lit "exercises".data, .lit "batch".data], .batchT),
   ([.lit "api".data, .lit "v1".data, .lit "search".data], .searchT),
   ([.lit "api".data, .lit "v1".data, .lit "categories".data], .categoriesT),
   ([.lit "api".data, .lit "v1".data, .lit "muscles".data], .musclesT),
   ([], .rootT)]

/-- Match a pattern against a path, returning captured parameter segments
in order. -/
def matchSegs : List Seg → List Str → Option (List Str)
  | [], [] => some []
  | .lit s :: ps, x :: xs => if s == x then matchSegs ps xs else none
  | .param :: ps, x :: xs => (matchSegs ps xs).map (x :: ·)
  | _, _ => none

/-- First matching route wins. -/
def firstMatch : List (List Seg × HTag) → List Str → Option (HTag × List Str)
  | [], _ => none
  | (pat, t) :: rest, path =>
    match matchSegs pat path with
    | some caps => some (t, caps)
    | none => firstMatch rest path

/-- Route a GET request path. -/
def dispatch (path : List Str) : Option (HTag × List Str) :=
  firstMatch apiRoutes path

/-- Serve one GET request against a persisted snapshot. -/
def serveGet (store : Store) (q : Query) (path : List Str) : ApiResponse :=
  match dispatch path with
  | some (.versionT, _) => .versionResp
  | some (.listT, _) => getExercisesHandler store q
  | some (.getByIdT, caps) => getByIdHandler store (caps.headD [])
  | some (.batchT, _) => batchHandler store q
  | some (.searchT, _) => searchHandler store q
  | some (.categoriesT, _) => categoriesHandler
  | some (.musclesT, _) => musclesHandler store
  | some (.rootT, _) => .rootResp
  | none => .errResp 404 "Cannot GET".data

/-! ## The pipeline (`scripts/md-to-json.js`, `processExerciseFiles`)

Source paths and contents are plain `String`s.  The MD5 digest
(`calculateHash`) is an explicit function parameter `hash` — change
detection only ever compares digests for equality.  Parsing + schema
validation of one file is likewise abstracted into a predicate `valid` on
the file's content (a file that throws during parsing or fails Ajv
counts as invalid; its hash is recorded before parsing either way).  The
semantic version string `"a.b.c"` is carried as its triple of numeric
components: the source's `split('.')` / `parseInt` / template re-join is
exactly the triple's patch increment. -/

/-- A semantic version `major.minor.patch`. -/
structure Semver where
  major : Nat
  minor : Nat
  patch : Nat
deriving DecidableEq

/-- `version.json` content: `{version, lastUpdated, exerciseCount}`. -/
structure VersionRecord where
  version : Semver
  lastUpdated : String
  exerciseCount : Nat
deriving DecidableEq

/-- What one pipeline run persists of ledger and version state. -/
structure RunResult where
  ledger : List (String × String)
  versionRec : VersionRecord
deriving DecidableEq

/-- `versionParts[2] = parseInt(versionParts[2]) + 1`, major and minor
re-joined unchanged. -/
def bumpPatch (v : Semver) : Semver :=
  ⟨v.major, v.minor, v.patch + 1⟩

/-- The files the run processes: the globbed list minus `index.md` files
(skipped before hashing). -/
def processedFiles (files : List (String × String)) : List (String × String) :=
  files.filter (fun f => !(f.1.endsWith "index.md"))

/-- `processExerciseFiles`: hash every processed file into
`currentHashes`, flag `hasChanges` when some file's digest differs from or
is absent in `previousHashes`, count the valid records, bump the patch
component exactly when `hasChanges`, and persist the refreshed ledger and
the version record (the latter always with the fresh timestamp `now` and
the valid-record count). -/
def processExerciseFiles (hash : String → String) (valid : String → Bool)
    (files : List (String × String)) (previousHashes : List (String × String))
    (currentVersion : Semver) (now : String) : RunResult :=
  let procd := processedFiles files
  let currentHashes := procd.map (fun f => (f.1, hash f.2))
  let hasChanges := procd.any (fun f => previousHashes.lookup f.1 != some (hash f.2))
  let validCount := (procd.filter (fun f => valid f.2)).length
  let newVersion := if hasChanges then bumpPatch currentVersion else currentVersion
  { ledger := currentHashes
    versionRec :=
      { version := newVersion, lastUpdated := now, exerciseCount := validCount } }

/-! ## Section extraction (`parseMarkdownFile`, the token loop)

The `marked` lexer tokens the loop inspects: headings, paragraphs, lists
(anything else falls under `other` and is skipped). -/

/-- A lexer token as the section loop sees it. -/
inductive MdToken where
  | heading (text : Str)
  | paragraph (text : Str)
  | listTok (items : List Str)
  | other
deriving DecidableEq

/-- JS object assignment `sections[k] = v` on an insertion-ordered
key/value object: replace the value under an existing key, else append the
binding. -/
def setSection (m : List (Str × List Str)) (k : Str) (v : List Str) :
    List (Str × List Str) :=
  match m with
  | [] => [(k, v)]
  | (k0, v0) :: rest =>
    if k0 == k then (k0, v) :: rest else (k0, v0) :: setSection rest k v

/-- The loop state: the sections object and `currentSection`. -/
structure ParseState where
  sections : List (Str × List Str)
  currentSection : Option Str
deriving DecidableEq

/-- One iteration of the token loop: a heading lower-cases its text,
makes it current and resets its entry to `[]`; under a current heading a
paragraph pushes its text and a list replaces the whole entry with its
items; anything else (or any block before the first heading) is ignored.
(A paragraph whose heading has no entry cannot arise: every heading
initialises its entry first — the JS would throw there, the model is the
identity.) -/
def stepToken (st : ParseState) (tok : MdToken) : ParseState :=
  match tok with
  | .heading text =>
    let cur := lowerStr text
    { sections := setSection st.sections cur [], currentSection := some cur }
  | .paragraph text =>
    match st.currentSection with
    | none => st
    | some cur =>
      match st.sections.lookup cur with
      | some v => { st with sections := setSection st.sections cur (v ++ [text]) }
      | none => st
  | .listTok items =>
    match st.currentSection with
    | none => st
    | some cur => { st with sections := setSection st.sections cur items }
  | .other => st

/-- The sections mapping produced from a token stream. -/
def extractSections (tokens : List MdToken) : List (Str × List Str) :=
  (tokens.foldl stepToken ⟨[], none⟩).sections

/-! ## Concrete fixtures

The two records of the spec's scenarios: `push-up` (upper-body, beginner)
and `squat` (lower-body, beginner, following
`exercises/categories/lower-body/squat.md`). -/

/-- The `push-up` record of the spec's scenarios. -/
def pushUpEx : Exercise :=
  { id := "push-up".data
    name := "Push-up".data
    category := "upper-body".data
    difficulty := "beginner".data
    equipment := ["none".data]
    primaryMuscles := ["chest".data, "triceps".data]
    secondaryMuscles := ["shoulders".data, "core".data]
    tags := ["bodyweight".data, "strength".data]
    description := "A classic bodyweight exercise".data }

/-- The `squat` record, after `exercises/categories/lower-body/squat.md`. -/
def squatEx : Exercise :=
  { id := "squat".data
    name := "Squat".data
    category := "lower-body".data
    difficulty := "beginner".data
    equipment := ["none".data]
    primaryMuscles := ["quadriceps".data, "glutes".data]
    secondaryMuscles := ["hamstrings".data, "core".data]
    tags := ["bodyweight".data, "compound".data, "legs".data]
    description := "A compound exercise for the lower body".data }

/-- A snapshot persisting exactly `push-up` and `squat`. -/
def store0 : Store :=
  { records := [("push-up".data, pushUpEx), ("squat".data, squatEx)]
    exercisesJson := some [pushUpEx, squatEx] }

/-- A snapshot persisting only `squat`. -/
def store1 : Store :=
  { records := [("squat".data, squatEx)]
    exercisesJson := some [squatEx] }

/-- The request path of `GET /api/v1/exercises/batch`. -/
def batchPath : List Str :=
  ["api".data, "v1".data, "exercises".data, "batch".data]

/-- The request path of `GET /api/v1/search`. -/
def searchPath : List Str := ["api".data, "v1".data, "search".data]

/-- The request path of `GET /api/v1/exercises`. -/
def listPath : List Str := ["api".data, "v1".data, "exercises".data]

/-- The request path of `GET /api/v1/categories`. -/
def categoriesPath : List Str := ["api".data, "v1".data, "categories".data]

/-- The request path of `GET /api/v1/muscles`. -/
def musclesPath : List Str := ["api".data, "v1".data, "muscles".data]

/-- A request with no query parameters at all. -/
def emptyQuery : Query := {}

/-! ## Supporting lemmas -/

theorem splitOnChar_ne_nil (c : Char) (s : Str) : splitOnChar c s ≠ [] := by
  induction s with
  | nil => simp [splitOnChar]
  | cons a t ih =>
    by_cases h : a = c
    · simp [splitOnChar, h]
    · simp only [splitOnChar, if_neg h]
      cases hs : splitOnChar c t <;> simp

theorem splitOnChar_of_not_mem (c : Char) (s : Str) (h : c ∉ s) :
    splitOnChar c s = [s] := by
  induction s with
  | nil => rfl
  | cons a t ih =>
    have ha : ¬a = c := fun he => h (he ▸ List.mem_cons_self a t)
    have ht : c ∉ t := fun hc => h (List.mem_cons_of_mem a hc)
    simp only [splitOnChar, if_neg ha, ih ht]

theorem splitOnChar_append_cons (c : Char) (b e : Str) :
    splitOnChar c (b ++ c :: e) = splitOnChar c b ++ splitOnChar c e := by
  induction b with
  | nil => simp [splitOnChar]
  | cons a t ih =>
    by_cases h : a = c
    · subst h
      simp [splitOnChar, ih]
    · obtain ⟨s, ss, hs⟩ := List.exists_cons_of_ne_nil (splitOnChar_ne_nil c t)
      simp [splitOnChar, h, ih, hs]

theorem joinChar_splitOnChar (c : Char) (s : Str) :
    joinChar c (splitOnChar c s) = s := by
  induction s with
  | nil => rfl
  | cons a t ih =>
    by_cases h : a = c
    · subst h
      simp only [splitOnChar, if_pos rfl]
      obtain ⟨s1, ss1, hs⟩ := List.exists_cons_of_ne_nil (splitOnChar_ne_nil a t)
      rw [hs]
      rw [hs] at ih
      simpa [joinChar] using ih
    · simp only [splitOnChar, if_neg h]
      obtain ⟨s1, ss1, hs⟩ := List.exists_cons_of_ne_nil (splitOnChar_ne_nil c t)
      rw [hs]
      rw [hs] at ih
      cases ss1 with
      | nil => simp only [joinChar] at ih ⊢; rw [ih]
      | cons u us =>
        simp only [joinChar] at ih ⊢
        rw [List.cons_append, ih]

theorem thumbName_insert (b e : Str) (he : '.' ∉ e) :
    thumbName (b ++ '.' :: e) = b ++ "-thumb".data ++ '.' :: e := by
  unfold thumbName
  rw [splitOnChar_append_cons, splitOnChar_of_not_mem _ _ he]
  simp only [List.dropLast_concat, List.getLastD_concat, joinChar_splitOnChar,
    List.append_assoc]

theorem mem_foldl_addDistinct (l : List Str) (acc : List Str) (m : Str) :
    m ∈ l.foldl addDistinct acc ↔ m ∈ acc ∨ m ∈ l := by
  induction l generalizing acc with
  | nil => simp
  | cons x xs ih =>
    rw [List.foldl_cons, ih]
    unfold addDistinct
    by_cases hx : x ∈ acc
    · simp only [if_pos hx, List.mem_cons]
      constructor
      · tauto
      · rintro (h | rfl | h)
        · exact Or.inl h
        · exact Or.inl hx
        · exact Or.inr h
    · simp only [if_neg hx, List.mem_append, List.mem_singleton, List.mem_cons]
      tauto

theorem nodup_foldl_addDistinct (l : List Str) (acc : List Str) (h : acc.Nodup) :
    (l.foldl addDistinct acc).Nodup := by
  induction l generalizing acc with
  | nil => exact h
  | cons x xs ih =>
    rw [List.foldl_cons]
    apply ih
    unfold addDistinct
    by_cases hx : x ∈ acc
    · rw [if_pos hx]; exact h
    · rw [if_neg hx]
      simp [List.nodup_append, h, hx]

theorem mem_dedupKeepFirst (l : List Str) (m : Str) :
    m ∈ dedupKeepFirst l ↔ m ∈ l := by
  unfold dedupKeepFirst
  rw [mem_foldl_addDistinct]
  simp

theorem nodup_dedupKeepFirst (l : List Str) : (dedupKeepFirst l).Nodup :=
  nodup_foldl_addDistinct l [] List.nodup_nil

theorem mem_optFilter (o : Option Str) (p : Str → Exercise → Bool)
    (l : List Exercise) (x : Exercise) :
    x ∈ optFilter o p l ↔ x ∈ l ∧ optSat o p x = true := by
  cases o <;> simp [optFilter, optSat, List.mem_filter]

theorem lookup_setSection_self (m : List (Str × List Str)) (k : Str) (v : List Str) :
    (setSection m k v).lookup k = some v := by
  induction m with
  | nil => simp [setSection, List.lookup]
  | cons p rest ih =>
    obtain ⟨k0, v0⟩ := p
    by_cases h : k0 = k
    · subst h
      simp [setSection, List.lookup]
    · have hb : (k0 == k) = false := beq_eq_false_iff_ne.mpr h
      have hb2 : (k == k0) = false := beq_eq_false_iff_ne.mpr (Ne.symm h)
      simp [setSection, hb, hb2, List.lookup, ih]

theorem lookup_map_hash_of_mem (h : String → String) (l : List (String × String))
    (hnd : (l.map Prod.fst).Nodup) (f : String × String) (hf : f ∈ l) :
    (l.map (fun g => (g.1, h g.2))).lookup f.1 = some (h f.2) := by
  induction l with
  | nil => cases hf
  | cons x xs ih =>
    have hnd2 : x.1 ∉ xs.map Prod.fst ∧ (xs.map Prod.fst).Nodup := by
      rw [List.map_cons, List.nodup_cons] at hnd
      exact hnd
    rcases List.mem_cons.mp hf with rfl | hmem
    · simp [List.lookup]
    · have hne : f.1 ≠ x.1 := by
        intro he
        exact hnd2.1 (he ▸ List.mem_map_of_mem Prod.fst hmem)
      have hb : (f.1 == x.1) = false := beq_eq_false_iff_ne.mpr hne
      simp only [List.map_cons, List.lookup, hb]
      exact ih hnd2.2 hmem

theorem lookup_map_hash_eq_none (h : String → String) (l : List (String × String))
    (p : String) (hp : p ∉ l.map Prod.fst) :
    (l.map (fun g => (g.1, h g.2))).lookup p = none := by
  induction l with
  | nil => rfl
  | cons x xs ih =>
    have h1 : p ≠ x.1 := fun he => hp (by simp [he])
    have h2 : p ∉ xs.map Prod.fst := fun hm => hp (by simp [hm])
    have hb : (p == x.1) = false := beq_eq_false_iff_ne.mpr h1
    simp only [List.map_cons, List.lookup, hb]
    exact ih h2

theorem effPage_pos (q : Query) : 1 ≤ effPage q := by
  rcases hq : q.page with _ | (_ | n) <;> simp [effPage, hq]

theorem effLimit_pos (q : Query) : 1 ≤ effLimit q := by
  rcases hq : q.limit with _ | (_ | n) <;> simp [effLimit, hq]

/-! ## The claims -/

/-- C1: the claim says a Batch request returns the subset of records whose
ids exist, in input order, silently dropping unknown ids — in particular
Batch(ids=["push-up","nonexistent","squat"]) over a dataset holding
push-up and squat returns those two records in order.  The code violates
this: `/api/v1/exercises/:id` is registered before
`/api/v1/exercises/batch`, so the request path dispatches to the
get-by-id handler with id = "batch", which answers 404 "Exercise not
found"; the batch handler itself — which would indeed return exactly
[push-up, squat] on that input — is unreachable. -/
theorem c1_batch_route_shadowed :
    dispatch batchPath = some (HTag.getByIdT, ["batch".data]) ∧
    serveGet store0 { ids := some "push-up,nonexistent,squat".data } batchPath
      = ApiResponse.errResp 404 "Exercise not found".data ∧
    batchHandler store0 { ids := some "push-up,nonexistent,squat".data }
      = ApiResponse.batchResp [pushUpEx, squatEx] := by
  refine ⟨by decide, by decide, by decide⟩

/-- C2: a Search request with no criteria does fail immediately with a 400
`{error: ...}` response for every snapshot; but a Batch request with no
ids does NOT produce a 400 — the `:id` route shadows `/exercises/batch`,
so the server answers 404 "Exercise not found" instead of the
BadRequestError the unreachable batch handler would give. -/
theorem c2_missing_params :
    (∀ store : Store, serveGet store emptyQuery searchPath
        = ApiResponse.errResp 400 "At least one search parameter is required".data) ∧
    serveGet store0 emptyQuery batchPath
      = ApiResponse.errResp 404 "Exercise not found".data := by
  exact ⟨fun store => rfl, by decide⟩

/-- C3 counterexample: the claim says every facets response lists the
distinct values with per-value usage counts computed by scanning the
dataset at request time.  Against a snapshot whose only record is squat
(category lower-body), the categories endpoint still answers the fixed
five-entry lookup — it lists "core" although no record has that category,
it carries no counts, and it never scans. -/
theorem c3_counterexample :
    serveGet store1 emptyQuery categoriesPath
      = ApiResponse.categoriesResp fixedCategories ∧
    "core".data ∈ fixedCategories.map Category.id ∧
    store1.exercisesJson = some [squatEx] ∧
    squatEx.category ≠ "core".data := by
  decide

/-- C3 amended: the categories facet answers the fixed five-category
lookup (ids with display names, no usage counts) independently of the
dataset; the muscles facet answers, by scanning the snapshot at request
time, each distinct muscle value (primary or secondary of some record)
exactly once, with no usage counts; there is no equipment facet
endpoint. -/
theorem c3_facets_amended :
    (∀ (store : Store) (q : Query),
        serveGet store q categoriesPath = ApiResponse.categoriesResp fixedCategories) ∧
    (∀ (data : List Exercise) (m : Str),
        m ∈ musclesList data ↔
          ∃ ex ∈ data, m ∈ ex.primaryMuscles ∨ m ∈ ex.secondaryMuscles) ∧
    (∀ data : List Exercise, (musclesList data).Nodup) := by
  refine ⟨fun store q => rfl, fun data m => ?_, fun data => ?_⟩
  · unfold musclesList
    rw [List.mem_mergeSort, mem_dedupKeepFirst]
    simp [List.mem_flatMap]
  · exact ((List.mergeSort_perm _ strLe).nodup_iff).mpr (nodup_dedupKeepFirst _)

/-- C4 counterexample: the claim says a Search result also satisfies the
tags any-of filter of List, and that with no query text Search behaves
exactly as List.  The search handler never reads the tags parameter:
squat (tags bodyweight/compound/legs) fails the tags filter for "arms",
yet Search(query="squat", tags="arms") still returns it; and with no
query text, Search(category="lower-body", tags="arms") differs from
List with the same parameters ([squat] versus []). -/
theorem c4_counterexample :
    searchFilter { query := some "squat".data, tags := some "arms".data } [squatEx]
      = [squatEx] ∧
    tagsPred "arms".data squatEx = false ∧
    serveGet store1 { category := some "lower-body".data, tags := some "arms".data }
        searchPath
      ≠ serveGet store1 { category := some "lower-body".data, tags := some "arms".data }
        listPath := by
  decide

/-- C4 amended: a record appears in the Search results iff it passes the
case-insensitive substring match of the query text over name, description
or some tag, and the category-equality, difficulty-equality,
equipment-membership and muscle-membership (primary union secondary)
filters of List; the tags filter is NOT applied by Search.  When no query
text and no tags parameter are supplied, Search filters exactly as List
does. -/
theorem c4_search_amended (data : List Exercise) (q : Query) (x : Exercise) :
    (x ∈ searchFilter q data ↔
      x ∈ data ∧ optSat (truthy q.query) matchesText x = true ∧
        optSat (truthy q.category) categoryPred x = true ∧
        optSat (truthy q.difficulty) difficultyPred x = true ∧
        optSat (truthy q.equipment) equipmentPred x = true ∧
        optSat (truthy q.muscle) musclePred x = true) ∧
    (truthy q.query = none → truthy q.tags = none →
      searchFilter q data = applyFilters q data) := by
  constructor
  · unfold searchFilter
    rw [mem_optFilter, mem_optFilter, mem_optFilter, mem_optFilter, mem_optFilter]
    tauto
  · intro hq ht
    unfold searchFilter applyFilters
    rw [hq, ht]
    rfl

/-- C4 witness: the amended equivalence at concrete inputs — with no
query text and no tags, Search filters as List on a category filter. -/
theorem c4_search_amended_witness :
    searchFilter { category := some "lower-body".data } [squatEx]
      = applyFilters { category := some "lower-body".data } [squatEx] :=
  (c4_search_amended [squatEx] { category := some "lower-body".data } squatEx).2 rfl rfl

/-- C5: for a List or Search request over a filtered list of length C with
effective page P (default 1) and effective limit L (default 20), the
response page is the slice at offset (P-1)*L of length at most L,
`metadata.total` is C, `metadata.pages` is ceil(C/L) (in natural-number
arithmetic, (C+L-1)/L), and a page beyond that range yields an empty
exercises list rather than an error; both handlers answer exactly the
paginated filtered list whenever the aggregate snapshot exists (Search
additionally requires some criterion, else C2 applies). -/
theorem c5_pagination (l : List Exercise) (q : Query) :
    (paginate q l).total = l.length ∧
    (paginate q l).exercises
      = (l.drop ((effPage q - 1) * effLimit q)).take (effLimit q) ∧
    (paginate q l).exercises.length ≤ effLimit q ∧
    (paginate q l).pages = (l.length + effLimit q - 1) / effLimit q ∧
    (effPage q > (paginate q l).pages → (paginate q l).exercises = []) ∧
    (∀ (store : Store) (data : List Exercise), store.exercisesJson = some data →
      serveGet store q listPath
        = ApiResponse.listResp (paginate q (applyFilters q data)) ∧
      (((truthy q.query).isNone && (truthy q.category).isNone &&
          (truthy q.difficulty).isNone && (truthy q.equipment).isNone &&
          (truthy q.muscle).isNone) = false →
        serveGet store q searchPath
          = ApiResponse.listResp (paginate q (searchFilter q data)))) := by
  refine ⟨rfl, rfl, List.length_take_le _ _, rfl, ?_, ?_⟩
  · intro hgt
    have hL : 1 ≤ effLimit q := effLimit_pos q
    have hP : effPage q > (l.length + effLimit q - 1) / effLimit q := hgt
    show (l.drop ((effPage q - 1) * effLimit q)).take (effLimit q) = []
    have hdrop : l.length ≤ (effPage q - 1) * effLimit q := by
      have h1 : effLimit q * ((l.length + effLimit q - 1) / effLimit q)
          + (l.length + effLimit q - 1) % effLimit q
          = l.length + effLimit q - 1 := Nat.div_add_mod _ _
      have h2 : (l.length + effLimit q - 1) % effLimit q < effLimit q :=
        Nat.mod_lt _ (by omega)
      have h3 : (l.length + effLimit q - 1) / effLimit q ≤ effPage q - 1 := by omega
      have h4 : ((l.length + effLimit q - 1) / effLimit q) * effLimit q
          ≤ (effPage q - 1) * effLimit q := Nat.mul_le_mul_right _ h3
      have h5 : effLimit q * ((l.length + effLimit q - 1) / effLimit q)
          = ((l.length + effLimit q - 1) / effLimit q) * effLimit q :=
        Nat.mul_comm _ _
      omega
    rw [List.drop_eq_nil_of_le hdrop, List.take_nil]
  · intro store data hdata
    constructor
    · have h0 : serveGet store q listPath = getExercisesHandler store q := rfl
      rw [h0]
      simp [getExercisesHandler, hdata]
    · intro hcrit
      have h0 : serveGet store q searchPath = searchHandler store q := rfl
      rw [h0]
      simp [searchHandler, hcrit, hdata]

/-- C5 witness: page 5 with limit 1 over a 2-record filtered list (pages =
2) yields an empty page, and the List endpoint answers the paginated
filtered snapshot. -/
theorem c5_pagination_witness :
    (paginate { page := some 5, limit := some 1 } [pushUpEx, squatEx]).exercises = [] ∧
    serveGet store0 { page := some 5, limit := some 1 } listPath
      = ApiResponse.listResp (paginate { page := some 5, limit := some 1 }
          (applyFilters { page := some 5, limit := some 1 } [pushUpEx, squatEx])) :=
  ⟨(c5_pagination [pushUpEx, squatEx] { page := some 5, limit := some 1 }).2.2.2.2.1
      (by decide),
   ((c5_pagination [pushUpEx, squatEx] { page := some 5, limit := some 1 }).2.2.2.2.2
      store0 [pushUpEx, squatEx] rfl).1⟩

/-- C6: every pipeline run persists the refreshed ledger (the digest of
every processed source) and a version record carrying the fresh timestamp
and the current valid-record count; and whenever some processed source's
digest differs from, or is absent from, the prior ledger, exactly the
patch component of the recorded semantic version is incremented, major
and minor untouched. -/
theorem c6_version_bump (hash : String → String) (valid : String → Bool)
    (files previousHashes : List (String × String)) (currentVersion : Semver)
    (now : String) :
    (processExerciseFiles hash valid files previousHashes currentVersion now).ledger
      = (processedFiles files).map (fun f => (f.1, hash f.2)) ∧
    (processExerciseFiles hash valid files previousHashes currentVersion
        now).versionRec.lastUpdated = now ∧
    (processExerciseFiles hash valid files previousHashes currentVersion
        now).versionRec.exerciseCount
      = ((processedFiles files).filter (fun f => valid f.2)).length ∧
    ((∃ f ∈ processedFiles files, previousHashes.lookup f.1 ≠ some (hash f.2)) →
      (processExerciseFiles hash valid files previousHashes currentVersion
          now).versionRec.version
        = ⟨currentVersion.major, currentVersion.minor, currentVersion.patch + 1⟩) := by
  refine ⟨rfl, rfl, rfl, ?_⟩
  rintro ⟨f, hf, hne⟩
  have hchg : (processedFiles files).any
      (fun f => previousHashes.lookup f.1 != some (hash f.2)) = true :=
    List.any_eq_true.mpr ⟨f, hf, bne_iff_ne.mpr hne⟩
  simp [processExerciseFiles, hchg, bumpPatch]

/-- C6 witness: a run whose single source is absent from the (empty)
prior ledger bumps 1.0.0 to 1.0.1. -/
theorem c6_version_bump_witness :
    (processExerciseFiles (fun s => s) (fun _ => true) [("a.md", "alpha")] []
        ⟨1, 0, 0⟩ "t1").versionRec.version = ⟨1, 0, 1⟩ :=
  (c6_version_bump (fun s => s) (fun _ => true) [("a.md", "alpha")] [] ⟨1, 0, 0⟩
      "t1").2.2.2 ⟨("a.md", "alpha"), by decide, by decide⟩

/-- C7 counterexample: the claim's hypothesis — every discovered source
file's digest equals its entry in the prior ledger — holds for a run over
the single unchanged source a.md while the prior ledger still carries an
entry for a removed b.md; yet the persisted ledger is NOT unchanged: the
stale entry is dropped.  (The version is indeed unchanged; only the
ledger conclusion fails.) -/
theorem c7_counterexample :
    processedFiles [("a.md", "alpha")] = [("a.md", "alpha")] ∧
    List.lookup "a.md" [("a.md", "alpha"), ("b.md", "beta")]
      = some ((fun s => s) "alpha") ∧
    (processExerciseFiles (fun s => s) (fun _ => true) [("a.md", "alpha")]
        [("a.md", "alpha"), ("b.md", "beta")] ⟨1, 0, 0⟩ "t1").ledger
      ≠ [("a.md", "alpha"), ("b.md", "beta")] := by
  decide

/-- C7 amended: re-running the pipeline on unchanged sources — the prior
ledger being exactly what a run over these sources persists, i.e. every
discovered file's digest equal to its entry and no entries for other
paths — leaves both the persisted hash ledger and the version unchanged.
(Glob yields each source path once, whence the no-duplicate
hypothesis.) -/
theorem c7_idempotent (hash : String → String) (valid : String → Bool)
    (files previousHashes : List (String × String)) (currentVersion : Semver)
    (now : String)
    (hnd : ((processedFiles files).map Prod.fst).Nodup)
    (hprev : previousHashes = (processedFiles files).map (fun f => (f.1, hash f.2))) :
    (processExerciseFiles hash valid files previousHashes currentVersion now).ledger
      = previousHashes ∧
    (processExerciseFiles hash valid files previousHashes currentVersion
        now).versionRec.version = currentVersion := by
  subst hprev
  have hchg : (processedFiles files).any
      (fun f => ((processedFiles files).map (fun g => (g.1, hash g.2))).lookup f.1
        != some (hash f.2)) = false := by
    rw [List.any_eq_false]
    intro f hf
    rw [lookup_map_hash_of_mem hash _ hnd f hf]
    simp
  exact ⟨rfl, by simp [processExerciseFiles, hchg]⟩

/-- C7 witness: a concrete unchanged re-run keeps ledger and version. -/
theorem c7_idempotent_witness :
    (processExerciseFiles (fun s => s) (fun _ => true) [("a.md", "alpha")]
        [("a.md", "alpha")] ⟨1, 0, 0⟩ "t2").ledger = [("a.md", "alpha")] ∧
    (processExerciseFiles (fun s => s) (fun _ => true) [("a.md", "alpha")]
        [("a.md", "alpha")] ⟨1, 0, 0⟩ "t2").versionRec.version = ⟨1, 0, 0⟩ :=
  c7_idempotent (fun s => s) (fun _ => true) [("a.md", "alpha")]
    [("a.md", "alpha")] ⟨1, 0, 0⟩ "t2" (by decide) (by decide)

/-- C8: the derived thumbnail list has exactly one entry per image, in
index correspondence (entry i is the transform of image i), and for an
image path ending in a dot-free extension the transform inserts the fixed
"-thumb" suffix immediately before the extension. -/
theorem c8_thumbnails (images : List Str) (i : Nat) (b e : Str) (he : '.' ∉ e) :
    (thumbnailsOf images).length = images.length ∧
    (thumbnailsOf images)[i]? = images[i]?.map thumbName ∧
    thumbName (b ++ '.' :: e) = b ++ "-thumb".data ++ '.' :: e :=
  ⟨List.length_map images thumbName, List.getElem?_map thumbName images i,
    thumbName_insert b e he⟩

/-- C8 witness: the thumbnail of "img.jpg" is "img-thumb.jpg". -/
theorem c8_thumbnails_witness :
    thumbName ("img".data ++ '.' :: "jpg".data)
      = "img".data ++ "-thumb".data ++ '.' :: "jpg".data :=
  (c8_thumbnails [] 0 "img".data "jpg".data (by decide)).2.2

/-- C9: in the section loop, a heading token lower-cases its text, makes
it the current section and resets that entry to empty; under a current
heading whose entry holds v, a paragraph token appends its text (entry
becomes v ++ [text]) while a list token replaces the whole entry with its
items, discarding v — a later list under the same heading overwrites, it
does not merge. -/
theorem c9_sections (m : List (Str × List Str)) (cur : Str) (t : Str)
    (items : List Str) (v : List Str) (hv : m.lookup cur = some v) :
    (stepToken ⟨m, some cur⟩ (MdToken.heading t)).currentSection
      = some (lowerStr t) ∧
    (stepToken ⟨m, some cur⟩ (MdToken.heading t)).sections.lookup (lowerStr t)
      = some [] ∧
    (stepToken ⟨m, some cur⟩ (MdToken.paragraph t)).sections.lookup cur
      = some (v ++ [t]) ∧
    (stepToken ⟨m, some cur⟩ (MdToken.listTok items)).sections.lookup cur
      = some items := by
  refine ⟨rfl, lookup_setSection_self m (lowerStr t) [], ?_,
    lookup_setSection_self m cur items⟩
  simp [stepToken, hv, lookup_setSection_self]

/-- C9 witness: under heading "tips" holding ["x"], a list token ["a"]
overwrites the captured content. -/
theorem c9_sections_witness :
    (stepToken ⟨[("tips".data, ["x".data])], some "tips".data⟩
        (MdToken.listTok ["a".data])).sections.lookup "tips".data
      = some ["a".data] :=
  (c9_sections [("tips".data, ["x".data])] "tips".data "p".data ["a".data]
    ["x".data] (by decide)).2.2.2

/-- C10: when every discovered source's digest equals its prior-ledger
entry, the run is not treated as changed even if the prior ledger holds
an entry for a path no longer discovered: the version is left untouched
(no patch increment) and the stale path's entry is absent from the
persisted ledger. -/
theorem c10_removed_sources (hash : String → String) (valid : String → Bool)
    (files previousHashes : List (String × String)) (currentVersion : Semver)
    (now : String) (p : String) (h0 : String)
    (_hp : previousHashes.lookup p = some h0)
    (hall : ∀ f ∈ processedFiles files, previousHashes.lookup f.1 = some (hash f.2))
    (hstale : p ∉ (processedFiles files).map Prod.fst) :
    (processExerciseFiles hash valid files previousHashes currentVersion
        now).versionRec.version = currentVersion ∧
    (processExerciseFiles hash valid files previousHashes currentVersion
        now).ledger.lookup p = none := by
  have hchg : (processedFiles files).any
      (fun f => previousHashes.lookup f.1 != some (hash f.2)) = false := by
    rw [List.any_eq_false]
    intro f hf
    rw [hall f hf]
    simp
  constructor
  · simp [processExerciseFiles, hchg]
  · show ((processedFiles files).map (fun f => (f.1, hash f.2))).lookup p = none
    exact lookup_map_hash_eq_none hash _ p hstale

/-- C10 witness: removing b.md (still in the prior ledger) while a.md is
unchanged keeps version 1.0.0 and silently drops the b.md ledger
entry. -/
theorem c10_removed_sources_witness :
    (processExerciseFiles (fun s => s) (fun _ => true) [("a.md", "alpha")]
        [("a.md", "alpha"), ("b.md", "beta")] ⟨1, 0, 0⟩ "t3").versionRec.version
      = ⟨1, 0, 0⟩ ∧
    (processExerciseFiles (fun s => s) (fun _ => true) [("a.md", "alpha")]
        [("a.md", "alpha"), ("b.md", "beta")] ⟨1, 0, 0⟩ "t3").ledger.lookup "b.md"
      = none :=
  c10_removed_sources (fun s => s) (fun _ => true) [("a.md", "alpha")]
    [("a.md", "alpha"), ("b.md", "beta")] ⟨1, 0, 0⟩ "t3" "b.md" "beta"
    (by decide) (by decide) (by decide)

end WO

